import Mathlib

/-!
# The `ls` command of img (`list.go`)

A shallow embedding of `listCommand.Run` and `printDebug`.

* Standard output is the sequence of chunks flushed by the tab writers the
  command creates; a chunk keeps the writer's configuration and the lines
  written through it. A line keeps the cells of its format string, the pieces
  that the format separates by `\t`; each cell keeps the text of the value
  formatted into it and the minimum width of its verb, and `Cell.render`,
  `Line.render` give the characters written. Tabs or newlines inside a
  formatted value are not split again.
* `int64` values are integers; the additions of the summary loop wrap to the
  signed 64-bit range.
* `units.BytesSize(float64(n))` and the `%v` rendering of `time.Time` belong
  to other packages and are taken as parameters (`Formatters`).
* The signal-handling goroutine of `Run` is not part of the embedding.
-/

namespace Img

/-! ## Data model -/

/-- Go `error` values, identified by their message. -/
abbrev GoError := String

/-- Stand-in for `time.Time`: only its identity matters here. -/
structure Time where
  unixNano : Int
deriving DecidableEq, Repr

/-- The fields of `controlapi.UsageRecord` read by `list.go`.
`Size_` and `UsageCount` are `int64`, `LastUsedAt` is a `*time.Time`
(`none` is the nil pointer). -/
structure UsageRecord where
  ID : String
  Mutable : Bool
  InUse : Bool
  Size_ : Int
  Parent : String
  CreatedAt : Time
  LastUsedAt : Option Time
  UsageCount : Int
  Description : String
deriving DecidableEq, Repr

/-- Range of a Go `int64`. -/
def inInt64 (x : Int) : Prop := -9223372036854775808 ≤ x ∧ x ≤ 9223372036854775807

instance (x : Int) : Decidable (inInt64 x) := by
  unfold inInt64; exact inferInstance

/-- Result of a Go `int64` addition whose exact value is `x`: reduction
modulo `2^64` into `[-2^63, 2^63)`. -/
def wrapInt64 (x : Int) : Int :=
  (x + 9223372036854775808) % 18446744073709551616 - 9223372036854775808

/-- Formatting functions of other packages used by `list.go`. -/
structure Formatters where
  /-- `units.BytesSize(float64(n))` for an `int64` `n`. -/
  BytesSize : Int → String
  /-- `%v` of a `time.Time` (and of a non-nil `*time.Time`). -/
  timeString : Time → String

/-! ## Output model -/

/-- One tab-separated cell of a written line: the text of the formatted value
and the minimum width of a left-justifying verb such as `%-71s` (`0` when the
verb has no width). -/
structure Cell where
  width : Nat
  text : String
deriving DecidableEq, Repr

/-- The characters `fmt` writes for a cell: the text, padded on the right with
spaces up to the minimum width. -/
def Cell.render (c : Cell) : String :=
  c.text ++ String.mk (List.replicate (c.width - c.text.length) ' ')

/-- A written line: its cells, which the format string separates by `\t`. -/
abbrev Line := List Cell

/-- The characters written for a line, with its terminating newline. -/
def Line.render (l : Line) : String :=
  String.intercalate "\t" (l.map Cell.render) ++ "\n"

/-- Parameters of `tabwriter.NewWriter`, in the order of its signature
`NewWriter(output, minwidth, tabwidth, padding, padchar, flags)`. -/
structure TabConfig where
  minwidth : Nat
  tabwidth : Nat
  padding : Nat
  padchar : Char
  flags : Nat
deriving DecidableEq, Repr

/-- A `*tabwriter.Writer` on standard output: configuration and the lines
written and not yet flushed. -/
structure Writer where
  cfg : TabConfig
  buf : List Line
deriving DecidableEq, Repr

/-- What one writer hands to standard output. -/
structure Block where
  cfg : TabConfig
  lines : List Line
deriving DecidableEq, Repr

/-- Standard output: the flushed chunks, oldest first. -/
abbrev Stdout := List Block

/-- `tabwriter.NewWriter(os.Stdout, minwidth, tabwidth, padding, padchar, flags)`. -/
def NewWriter (minwidth tabwidth padding : Nat) (padchar : Char) (flags : Nat) : Writer :=
  ⟨⟨minwidth, tabwidth, padding, padchar, flags⟩, []⟩

/-- `fmt.Fprintf(tw, ...)` / `fmt.Fprintln(tw, ...)` of one line. -/
def Fprintf (tw : Writer) (l : Line) : Writer :=
  ⟨tw.cfg, tw.buf ++ [l]⟩

/-- `tw.Flush()`. -/
def Flush (out : Stdout) (tw : Writer) : Stdout × Writer :=
  (out ++ [⟨tw.cfg, tw.buf⟩], ⟨tw.cfg, []⟩)

/-- A cell written by a verb without width, or literal text. -/
def plain (s : String) : Cell := ⟨0, s⟩

/-- Line of the format `"%s:\t%v\n"`. -/
def labelled (label value : String) : Line :=
  [plain (label ++ ":"), plain value]

/-- Line of `fmt.Fprintf(tw, "\n")`. -/
def blankLine : Line := [plain ""]

/-! ## `printDebug` -/

/-- Body of the loop of `printDebug` for one record. -/
def printDebugRecord (F : Formatters) (tw : Writer) (di : UsageRecord) : Writer :=
  let tw := Fprintf tw (labelled "ID" di.ID)
  let tw := if di.Parent != "" then Fprintf tw (labelled "Parent" di.Parent) else tw
  let tw := Fprintf tw (labelled "Created at" (F.timeString di.CreatedAt))
  let tw := Fprintf tw (labelled "Mutable" (toString di.Mutable))
  let tw := Fprintf tw (labelled "Reclaimable" (toString (!di.InUse)))
  let tw := Fprintf tw (labelled "Size" (F.BytesSize di.Size_))
  let tw := if di.Description != "" then Fprintf tw (labelled "Description" di.Description) else tw
  let tw := Fprintf tw (labelled "Usage count" (toString di.UsageCount))
  let tw :=
    match di.LastUsedAt with
    | some t => Fprintf tw (labelled "Last used" (F.timeString t))
    | none => tw
  Fprintf tw blankLine

/-- `printDebug(tw, du)`. -/
def printDebug (F : Formatters) (out : Stdout) (tw : Writer) (du : List UsageRecord) :
    Stdout × Writer :=
  Flush out (du.foldl (printDebugRecord F) tw)

/-! ## `listCommand.Run` -/

/-- The `listCommand` struct. -/
structure listCommand where
  filter : String
deriving DecidableEq, Repr

/-- What `createController` hands back on success: the controller's
`DiskUsage` call as a function of the request's filter, and the result of
`fuseserver.Unmount()` (`none` is a nil error). -/
structure Controller where
  DiskUsage : String → Except GoError (List UsageRecord)
  Unmount : Option GoError

/-- What `Run` reads from its surroundings. -/
structure Env where
  debug : Bool
  createController : listCommand → Except GoError Controller
  fmt : Formatters

/-- Header line of the table. -/
def headerLine : Line :=
  [plain "ID", plain "RECLAIMABLE", plain "SIZE", plain "LAST ACCESSED"]

/-- Body of the table loop: the line of format `"%-71s\t%-11v\t%s\t\n"`. -/
def tableRow (F : Formatters) (di : UsageRecord) : Line :=
  let id := if di.Mutable then di.ID ++ "*" else di.ID
  [⟨71, id⟩, ⟨11, toString (!di.InUse)⟩, plain (F.BytesSize di.Size_), plain ""]

/-- The accumulators of the summary loop. -/
structure Totals where
  total : Int
  reclaimable : Int
deriving DecidableEq, Repr

/-- Body of the summary loop. -/
def summaryStep (acc : Totals) (di : UsageRecord) : Totals :=
  if di.Size_ > 0 then
    let total := wrapInt64 (acc.total + di.Size_)
    if !di.InUse then
      ⟨total, wrapInt64 (acc.reclaimable + di.Size_)⟩
    else
      ⟨total, acc.reclaimable⟩
  else acc

/-- The summary loop of `Run`, from `total := int64(0)`, `reclaimable := int64(0)`. -/
def summaryLoop (records : List UsageRecord) : Totals :=
  records.foldl summaryStep ⟨0, 0⟩

/-- The listing part of `Run`: detail blocks when `debug`, the table otherwise. -/
def writeListing (F : Formatters) (debug : Bool) (out : Stdout) (tw : Writer)
    (records : List UsageRecord) : Stdout × Writer :=
  if debug then
    printDebug F out tw records
  else
    let tw := Fprintf tw headerLine
    let tw := records.foldl (fun tw di => Fprintf tw (tableRow F di)) tw
    Flush out tw

/-- The `if cmd.filter == ""` part of `Run`. -/
def writeSummary (F : Formatters) (filter : String) (out : Stdout)
    (records : List UsageRecord) : Stdout :=
  if filter == "" then
    let s := summaryLoop records
    let tw := NewWriter 1 8 1 '\t' 0
    let tw := Fprintf tw [plain "Reclaimable:", plain (F.BytesSize s.reclaimable)]
    let tw := Fprintf tw [plain "Total:", plain (F.BytesSize s.total)]
    (Flush out tw).1
  else out

/-- `(cmd *listCommand) Run(args)`: the returned error (`none` is nil) and
what was written to standard output. -/
def Run (env : Env) (cmd : listCommand) (_args : List String) : Option GoError × Stdout :=
  match env.createController cmd with
  | .error err => (some err, [])
  | .ok c =>
    match c.DiskUsage cmd.filter with
    | .error err => (some err, [])
    | .ok resp =>
      let tw := NewWriter 1 8 1 '\t' 0
      let out := (writeListing env.fmt env.debug [] tw resp).1
      let out := writeSummary env.fmt cmd.filter out resp
      match c.Unmount with
      | some err => (some ("Unmounting FUSE server failed: " ++ err), out)
      | none => (none, out)

/-! ## What the spec says the summary is -/

/-- Spec side of `total`: the exact sum of `Size_` over the records with
`Size_ > 0`. -/
def specTotal (records : List UsageRecord) : Int :=
  ((records.filter (fun di => decide (di.Size_ > 0))).map UsageRecord.Size_).sum

/-- Spec side of `reclaimable`: the exact sum of `Size_` over the records with
`Size_ > 0` that are not in use. -/
def specReclaimable (records : List UsageRecord) : Int :=
  ((records.filter (fun di => decide (di.Size_ > 0) && !di.InUse)).map UsageRecord.Size_).sum

/-- A record with the given size and in-use state, other fields arbitrary. -/
def sized (size : Int) (inUse : Bool) : UsageRecord :=
  ⟨"sha256:0", false, inUse, size, "", ⟨0⟩, none, 0, ""⟩

/-! ## Derived notions and sample inputs used in the statements -/

/-- The lines `printDebug` writes for one record: the loop body run on an
empty writer. -/
def detailBlock (F : Formatters) (di : UsageRecord) : List Line :=
  (printDebugRecord F (NewWriter 1 8 1 '\t' 0) di).buf

/-- Label of a line of the format `"%s:\t%v\n"`: the text of its first cell
without the closing colon; `none` for any other line, such as the blank one. -/
def Line.label : Line → Option String
  | [c, _] =>
    if c.text.data.getLast? = some ':' then some (String.mk c.text.data.dropLast) else none
  | _ => none

/-- The labels of `printDebug`, in the order of its statements. -/
def detailLabels : List String :=
  ["ID", "Parent", "Created at", "Mutable", "Reclaimable", "Size", "Description",
    "Usage count", "Last used"]

/-- The configuration both writers of `Run` are created with. -/
def runConfig : TabConfig := (NewWriter 1 8 1 '\t' 0).cfg

/-- The lines of the first chunk of an output: in table mode, the table. -/
def tableOf (out : Stdout) : List Line :=
  (out.head?.map Block.lines).getD []

/-- Two records of `2^62` bytes each, both in use. -/
def overflowTwo : List UsageRecord :=
  [sized 4611686018427387904 true, sized 4611686018427387904 true]

/-- The records of `overflowTwo` followed by a one-byte record not in use. -/
def overflowThree : List UsageRecord :=
  overflowTwo ++ [sized 1 false]

/-- A formatter pair for evaluation: the size in bytes followed by `B`, and
the nanosecond count of a time. -/
def sampleFmt : Formatters :=
  ⟨fun n => toString n ++ "B", fun t => toString t.unixNano⟩

/-- Surroundings whose controller answers every query with `records` and
unmounts without error. -/
def sampleEnv (debug : Bool) (records : List UsageRecord) : Env :=
  ⟨debug, fun _ => .ok ⟨fun _ => .ok records, none⟩, sampleFmt⟩

/-- Surroundings whose controller fails every query with `err`. -/
def failingEnv (debug : Bool) (err : GoError) : Env :=
  ⟨debug, fun _ => .ok ⟨fun _ => .error err, none⟩, sampleFmt⟩

/-- The record of the spec's example: ID `abc123`, mutable, not in use, 1 MiB. -/
def abc123 : UsageRecord :=
  ⟨"abc123", true, false, 1048576, "", ⟨0⟩, none, 0, ""⟩

/-- The record `abc123` with a last-use time. -/
def abc123Used : UsageRecord :=
  ⟨"abc123", true, false, 1048576, "", ⟨0⟩, some ⟨1700000000000000000⟩, 3, ""⟩

/-! ## Arithmetic of the summary loop -/

theorem wrapInt64_wrap_add (a s : Int) : wrapInt64 (wrapInt64 a + s) = wrapInt64 (a + s) := by
  unfold wrapInt64
  omega

theorem wrapInt64_of_inInt64 (x : Int) (h : inInt64 x) : wrapInt64 x = x := by
  unfold inInt64 at h
  unfold wrapInt64
  omega

theorem specTotal_cons (di : UsageRecord) (rest : List UsageRecord) :
    specTotal (di :: rest) = (if di.Size_ > 0 then di.Size_ else 0) + specTotal rest := by
  unfold specTotal
  by_cases h : di.Size_ > 0 <;> simp [List.filter_cons, h]

theorem specReclaimable_cons (di : UsageRecord) (rest : List UsageRecord) :
    specReclaimable (di :: rest)
      = (if di.Size_ > 0 ∧ di.InUse = false then di.Size_ else 0) + specReclaimable rest := by
  unfold specReclaimable
  by_cases h : di.Size_ > 0 <;> cases hu : di.InUse <;> simp [List.filter_cons, h, hu]

theorem specReclaimable_nonneg (records : List UsageRecord) : 0 ≤ specReclaimable records := by
  induction records with
  | nil => simp [specReclaimable]
  | cons di rest ih =>
    rw [specReclaimable_cons]
    split <;> omega

theorem specReclaimable_le_specTotal (records : List UsageRecord) :
    specReclaimable records ≤ specTotal records := by
  induction records with
  | nil => simp [specReclaimable, specTotal]
  | cons di rest ih =>
    rw [specReclaimable_cons, specTotal_cons]
    split <;> split <;> omega

/-- The loop from accumulators that are the wrapped values of `a` and `b`. -/
theorem foldl_summaryStep (records : List UsageRecord) (a b : Int) :
    records.foldl summaryStep ⟨wrapInt64 a, wrapInt64 b⟩
      = ⟨wrapInt64 (a + specTotal records), wrapInt64 (b + specReclaimable records)⟩ := by
  induction records generalizing a b with
  | nil => simp [specTotal, specReclaimable]
  | cons di rest ih =>
    rw [List.foldl_cons, specTotal_cons, specReclaimable_cons]
    by_cases h : di.Size_ > 0
    · cases hu : di.InUse
      · have hs : summaryStep ⟨wrapInt64 a, wrapInt64 b⟩ di
            = ⟨wrapInt64 (a + di.Size_), wrapInt64 (b + di.Size_)⟩ := by
          simp [summaryStep, h, hu, wrapInt64_wrap_add]
        rw [hs, ih]
        simp [h, add_assoc]
      · have hs : summaryStep ⟨wrapInt64 a, wrapInt64 b⟩ di
            = ⟨wrapInt64 (a + di.Size_), wrapInt64 b⟩ := by
          simp [summaryStep, h, hu, wrapInt64_wrap_add]
        rw [hs, ih]
        simp [h, add_assoc]
    · have hs : summaryStep ⟨wrapInt64 a, wrapInt64 b⟩ di = ⟨wrapInt64 a, wrapInt64 b⟩ := by
        simp [summaryStep, h]
      rw [hs, ih]
      simp [h]

theorem summaryLoop_wrapped (records : List UsageRecord) :
    summaryLoop records
      = ⟨wrapInt64 (specTotal records), wrapInt64 (specReclaimable records)⟩ := by
  have h := foldl_summaryStep records 0 0
  simpa [summaryLoop, wrapInt64] using h

theorem summaryLoop_exact (records : List UsageRecord)
    (h : specTotal records ≤ 9223372036854775807) :
    summaryLoop records = ⟨specTotal records, specReclaimable records⟩ := by
  have h0 := specReclaimable_nonneg records
  have h1 := specReclaimable_le_specTotal records
  rw [summaryLoop_wrapped, wrapInt64_of_inInt64 _ ⟨by omega, h⟩,
    wrapInt64_of_inInt64 _ ⟨by omega, by omega⟩]

/-! ## Shape of the listing -/

theorem printDebugRecord_cfg (F : Formatters) (tw : Writer) (di : UsageRecord) :
    (printDebugRecord F tw di).cfg = tw.cfg := by
  unfold printDebugRecord
  cases di.LastUsedAt <;> by_cases hp : di.Parent = "" <;> by_cases hd : di.Description = "" <;>
    simp [Fprintf, hp, hd]

theorem printDebugRecord_buf_aux (F : Formatters) (cfg cfg0 : TabConfig) (buf : List Line)
    (di : UsageRecord) :
    (printDebugRecord F ⟨cfg, buf⟩ di).buf = buf ++ (printDebugRecord F ⟨cfg0, []⟩ di).buf := by
  unfold printDebugRecord
  cases di.LastUsedAt <;> by_cases hp : di.Parent = "" <;> by_cases hd : di.Description = "" <;>
    simp [Fprintf, hp, hd]

/-- The loop body appends the record's block to what the writer holds. -/
theorem printDebugRecord_eq (F : Formatters) (tw : Writer) (di : UsageRecord) :
    printDebugRecord F tw di = ⟨tw.cfg, tw.buf ++ detailBlock F di⟩ := by
  have h1 := printDebugRecord_cfg F tw di
  have h2 := printDebugRecord_buf_aux F tw.cfg (NewWriter 1 8 1 '\t' 0).cfg tw.buf di
  cases hw : printDebugRecord F tw di with
  | mk c b =>
    rw [hw] at h1
    have h3 : (printDebugRecord F ⟨tw.cfg, tw.buf⟩ di).buf = b := by
      show (printDebugRecord F tw di).buf = b
      rw [hw]
    rw [h3] at h2
    simp only [Writer.mk.injEq]
    exact ⟨h1, h2⟩

theorem foldl_printDebugRecord (F : Formatters) (du : List UsageRecord) (tw : Writer) :
    du.foldl (printDebugRecord F) tw = ⟨tw.cfg, tw.buf ++ (du.map (detailBlock F)).flatten⟩ := by
  induction du generalizing tw with
  | nil => simp
  | cons di rest ih =>
    rw [List.foldl_cons, ih, printDebugRecord_eq]
    simp [List.append_assoc]

theorem foldl_tableRow (F : Formatters) (records : List UsageRecord) (tw : Writer) :
    records.foldl (fun tw di => Fprintf tw (tableRow F di)) tw
      = ⟨tw.cfg, tw.buf ++ records.map (tableRow F)⟩ := by
  induction records generalizing tw with
  | nil => simp
  | cons di rest ih =>
    rw [List.foldl_cons, ih]
    simp [Fprintf, List.append_assoc]

/-- The listing in table mode: one chunk, the header and one row per record. -/
theorem writeListing_table (F : Formatters) (out : Stdout) (tw : Writer)
    (records : List UsageRecord) :
    (writeListing F false out tw records).1
      = out ++ [⟨tw.cfg, tw.buf ++ headerLine :: records.map (tableRow F)⟩] := by
  simp only [writeListing, Flush, foldl_tableRow, Bool.false_eq_true, if_false]
  simp [Fprintf, List.append_assoc]

/-- The listing in debug mode: one chunk, one detail block per record. -/
theorem writeListing_debug (F : Formatters) (out : Stdout) (tw : Writer)
    (records : List UsageRecord) :
    (writeListing F true out tw records).1
      = out ++ [⟨tw.cfg, tw.buf ++ (records.map (detailBlock F)).flatten⟩] := by
  simp [writeListing, printDebug, Flush, foldl_printDebugRecord]

theorem detailBlock_head (F : Formatters) (di : UsageRecord) :
    (detailBlock F di).head? = some (labelled "ID" di.ID) := by
  unfold detailBlock printDebugRecord
  cases di.LastUsedAt <;> by_cases hp : di.Parent = "" <;> by_cases hd : di.Description = "" <;>
    simp [Fprintf, NewWriter, hp, hd]

theorem summaryStep_of_nonpos (acc : Totals) (di : UsageRecord) (h : di.Size_ ≤ 0) :
    summaryStep acc di = acc := by
  have h1 : ¬ di.Size_ > 0 := by omega
  simp [summaryStep, h1]

theorem Line.label_labelled (label value : String) :
    Line.label (labelled label value) = some label := by
  simp [Line.label, labelled, plain]

/-! ## The summary (C1, C2) -/

/-- C1, as amended: for every list of usage records the summary loop leaves in
`total` the sum of `Size_` over the records with `Size_ > 0` and in
`reclaimable` the sum of `Size_` over the records with `Size_ > 0` that are
not in use, both reduced to the signed 64-bit range by the wrapping
additions; whenever the first sum is at most `2^63 - 1` the two values are the
exact sums. The empty list gives 0 and 0, and records of size 100 (not in
use) and 900 (in use) give 1000 and 100. -/
theorem summaryLoop_sums (records : List UsageRecord) :
    ((summaryLoop records).total = wrapInt64 (specTotal records) ∧
      (summaryLoop records).reclaimable = wrapInt64 (specReclaimable records)) ∧
    (specTotal records ≤ 9223372036854775807 →
      (summaryLoop records).total = specTotal records ∧
      (summaryLoop records).reclaimable = specReclaimable records) ∧
    summaryLoop [] = ⟨0, 0⟩ ∧
    (∀ a b : UsageRecord, a.Size_ = 100 → a.InUse = false → b.Size_ = 900 → b.InUse = true →
      summaryLoop [a, b] = ⟨1000, 100⟩) := by
  refine ⟨?_, ?_, ?_, ?_⟩
  · rw [summaryLoop_wrapped]
    exact ⟨rfl, rfl⟩
  · intro h
    rw [summaryLoop_exact records h]
    exact ⟨rfl, rfl⟩
  · rfl
  · intro a b ha hau hb hbu
    simp [summaryLoop, summaryStep, wrapInt64, ha, hau, hb, hbu]

/-- Instance of `summaryLoop_sums` at the two records of the spec's example. -/
theorem summaryLoop_sums_witness :
    specTotal [sized 100 false, sized 900 true] ≤ 9223372036854775807 ∧
    (summaryLoop [sized 100 false, sized 900 true]).total
      = specTotal [sized 100 false, sized 900 true] ∧
    (summaryLoop [sized 100 false, sized 900 true]).reclaimable
      = specReclaimable [sized 100 false, sized 900 true] ∧
    summaryLoop [sized 100 false, sized 900 true] = ⟨1000, 100⟩ :=
  ⟨by decide,
    ((summaryLoop_sums [sized 100 false, sized 900 true]).2.1 (by decide)).1,
    ((summaryLoop_sums [sized 100 false, sized 900 true]).2.1 (by decide)).2,
    (summaryLoop_sums []).2.2.2 (sized 100 false) (sized 900 true) rfl rfl rfl rfl⟩

/-- Counterexample to C1 as stated: two in-use records of `2^62` bytes each are
valid `int64` sizes whose sum is `2^63`, and the loop leaves `-2^63` in
`total`. -/
theorem summaryLoop_total_overflow :
    (∀ di ∈ overflowTwo, inInt64 di.Size_) ∧
    specTotal overflowTwo = 9223372036854775808 ∧
    (summaryLoop overflowTwo).total = -9223372036854775808 ∧
    (summaryLoop overflowTwo).total ≠ specTotal overflowTwo := by
  decide

/-- C2, as amended: for every list of usage records whose sizes greater than 0
sum to at most `2^63 - 1`, the values left by the summary loop satisfy
`reclaimable <= total`. -/
theorem summaryLoop_reclaimable_le_total (records : List UsageRecord)
    (h : specTotal records ≤ 9223372036854775807) :
    (summaryLoop records).reclaimable ≤ (summaryLoop records).total := by
  rw [summaryLoop_exact records h]
  exact specReclaimable_le_specTotal records

/-- Instance of `summaryLoop_reclaimable_le_total` at the spec's two records. -/
theorem summaryLoop_reclaimable_le_total_witness :
    specTotal [sized 100 false, sized 900 true] ≤ 9223372036854775807 ∧
    (summaryLoop [sized 100 false, sized 900 true]).reclaimable
      ≤ (summaryLoop [sized 100 false, sized 900 true]).total :=
  ⟨by decide, summaryLoop_reclaimable_le_total [sized 100 false, sized 900 true] (by decide)⟩

/-- Counterexample to C2 as stated: on the non-empty list of two in-use records
of `2^62` bytes and one unused record of one byte, the 64-bit additions leave
`total = -2^63 + 1` and `reclaimable = 1`. -/
theorem summaryLoop_reclaimable_gt_total :
    overflowThree ≠ [] ∧
    (∀ di ∈ overflowThree, inInt64 di.Size_) ∧
    summaryLoop overflowThree = ⟨-9223372036854775807, 1⟩ ∧
    ¬ (summaryLoop overflowThree).reclaimable ≤ (summaryLoop overflowThree).total := by
  decide

/-! ## Records without a positive size (C3) -/

/-- C3: a record `r` with `Size_ <= 0` inserted anywhere in a list of usage
records leaves the totals of the summary loop as they are without it, while the
table still has one row for `r` at its place and the debug listing still has
one detail block for `r` at its place, which starts with the ID line of `r`. -/
theorem nonpositive_size_listed_not_counted (F : Formatters) (out : Stdout) (tw : Writer)
    (pre post : List UsageRecord) (r : UsageRecord) (h : r.Size_ ≤ 0) :
    summaryLoop (pre ++ r :: post) = summaryLoop (pre ++ post) ∧
    (writeListing F false out tw (pre ++ r :: post)).1
      = out ++ [⟨tw.cfg, tw.buf ++ headerLine ::
          (pre.map (tableRow F) ++ tableRow F r :: post.map (tableRow F))⟩] ∧
    (writeListing F true out tw (pre ++ r :: post)).1
      = out ++ [⟨tw.cfg, tw.buf ++ ((pre.map (detailBlock F)).flatten ++
          (detailBlock F r ++ (post.map (detailBlock F)).flatten))⟩] ∧
    (detailBlock F r).head? = some (labelled "ID" r.ID) := by
  refine ⟨?_, ?_, ?_, detailBlock_head F r⟩
  · simp [summaryLoop, List.foldl_append, summaryStep_of_nonpos _ r h]
  · rw [writeListing_table]
    simp
  · rw [writeListing_debug]
    simp

/-- Instance of `nonpositive_size_listed_not_counted`: a record of size 0
between the two records of the spec's example. -/
theorem nonpositive_size_listed_not_counted_witness :
    (sized 0 true).Size_ ≤ 0 ∧
    summaryLoop ([sized 100 false] ++ sized 0 true :: [sized 900 true])
      = summaryLoop ([sized 100 false] ++ [sized 900 true]) ∧
    (writeListing sampleFmt false [] (NewWriter 1 8 1 '\t' 0)
        ([sized 100 false] ++ sized 0 true :: [sized 900 true])).1
      = [] ++ [⟨(NewWriter 1 8 1 '\t' 0).cfg, (NewWriter 1 8 1 '\t' 0).buf ++ headerLine ::
          ([sized 100 false].map (tableRow sampleFmt) ++ tableRow sampleFmt (sized 0 true) ::
            [sized 900 true].map (tableRow sampleFmt))⟩] ∧
    (writeListing sampleFmt true [] (NewWriter 1 8 1 '\t' 0)
        ([sized 100 false] ++ sized 0 true :: [sized 900 true])).1
      = [] ++ [⟨(NewWriter 1 8 1 '\t' 0).cfg, (NewWriter 1 8 1 '\t' 0).buf ++
          (([sized 100 false].map (detailBlock sampleFmt)).flatten ++
            (detailBlock sampleFmt (sized 0 true) ++
              ([sized 900 true].map (detailBlock sampleFmt)).flatten))⟩] ∧
    (detailBlock sampleFmt (sized 0 true)).head? = some (labelled "ID" (sized 0 true).ID) :=
  ⟨by decide,
    nonpositive_size_listed_not_counted sampleFmt [] (NewWriter 1 8 1 '\t' 0)
      [sized 100 false] [sized 900 true] (sized 0 true) (by decide)⟩

/-! ## What `Run` writes (C4, C7, C8, C10) -/

theorem writeSummary_eq (F : Formatters) (filter : String) (out : Stdout)
    (records : List UsageRecord) :
    writeSummary F filter out records
      = out ++ (if filter = "" then
          [⟨runConfig,
            [[plain "Reclaimable:", plain (F.BytesSize (summaryLoop records).reclaimable)],
              [plain "Total:", plain (F.BytesSize (summaryLoop records).total)]]⟩]
        else []) := by
  by_cases hf : filter = ""
  · simp [writeSummary, hf, Flush, Fprintf, NewWriter, runConfig]
  · simp [writeSummary, hf]

/-- The output of `Run` once the controller exists and the query succeeded. -/
theorem Run_out_of_ok (env : Env) (cmd : listCommand) (args : List String) (c : Controller)
    (records : List UsageRecord) (hc : env.createController cmd = .ok c)
    (hq : c.DiskUsage cmd.filter = .ok records) :
    (Run env cmd args).2
      = writeSummary env.fmt cmd.filter
          (writeListing env.fmt env.debug [] (NewWriter 1 8 1 '\t' 0) records).1 records := by
  unfold Run
  rw [hc]
  simp only
  rw [hq]
  simp only
  cases c.Unmount <;> rfl

theorem writeListing_length (F : Formatters) (debug : Bool) (tw : Writer)
    (records : List UsageRecord) :
    (writeListing F debug [] tw records).1.length = 1 := by
  cases debug
  · rw [writeListing_table]; simp
  · rw [writeListing_debug]; simp

theorem Run_table (env : Env) (cmd : listCommand) (args : List String) (c : Controller)
    (records : List UsageRecord) (hd : env.debug = false)
    (hc : env.createController cmd = .ok c) (hq : c.DiskUsage cmd.filter = .ok records) :
    tableOf (Run env cmd args).2 = headerLine :: records.map (tableRow env.fmt) := by
  rw [Run_out_of_ok env cmd args c records hc hq, writeSummary_eq, hd, writeListing_table]
  simp [tableOf, NewWriter]

/-- C4: once the query has succeeded, in debug mode and in table mode alike,
`Run` writes the listing (one chunk) and then, exactly when the filter is the
empty string, the summary: two lines, the first labelled `Reclaimable:` and the
second `Total:`; with a non-empty filter the output is the listing alone. -/
theorem Run_summary_iff_no_filter (env : Env) (cmd : listCommand) (args : List String)
    (c : Controller) (records : List UsageRecord)
    (hc : env.createController cmd = .ok c) (hq : c.DiskUsage cmd.filter = .ok records) :
    (writeListing env.fmt env.debug [] (NewWriter 1 8 1 '\t' 0) records).1.length = 1 ∧
    (cmd.filter = "" →
      (Run env cmd args).2
        = (writeListing env.fmt env.debug [] (NewWriter 1 8 1 '\t' 0) records).1 ++
          [⟨runConfig,
            [[plain "Reclaimable:", plain (env.fmt.BytesSize (summaryLoop records).reclaimable)],
              [plain "Total:", plain (env.fmt.BytesSize (summaryLoop records).total)]]⟩]) ∧
    (cmd.filter ≠ "" →
      (Run env cmd args).2
        = (writeListing env.fmt env.debug [] (NewWriter 1 8 1 '\t' 0) records).1) ∧
    ((Run env cmd args).2 ≠ (writeListing env.fmt env.debug [] (NewWriter 1 8 1 '\t' 0) records).1
      ↔ cmd.filter = "") := by
  rw [Run_out_of_ok env cmd args c records hc hq, writeSummary_eq]
  refine ⟨writeListing_length _ _ _ _, ?_, ?_, ?_⟩
  · intro hf
    simp [hf]
  · intro hf
    simp [hf]
  · by_cases hf : cmd.filter = "" <;> simp [hf]

/-- Instance of `Run_summary_iff_no_filter`: the spec's two records, table mode,
no filter. -/
theorem Run_summary_iff_no_filter_witness :
    (sampleEnv false [sized 100 false, sized 900 true]).createController ⟨""⟩
      = .ok ⟨fun _ => .ok [sized 100 false, sized 900 true], none⟩ ∧
    (Run (sampleEnv false [sized 100 false, sized 900 true]) ⟨""⟩ []).2
      = (writeListing sampleFmt false [] (NewWriter 1 8 1 '\t' 0)
          [sized 100 false, sized 900 true]).1 ++
        [⟨runConfig,
          [[plain "Reclaimable:", plain (sampleFmt.BytesSize
              (summaryLoop [sized 100 false, sized 900 true]).reclaimable)],
            [plain "Total:", plain (sampleFmt.BytesSize
              (summaryLoop [sized 100 false, sized 900 true]).total)]]⟩] :=
  ⟨rfl,
    (Run_summary_iff_no_filter (sampleEnv false [sized 100 false, sized 900 true]) ⟨""⟩ []
      ⟨fun _ => .ok [sized 100 false, sized 900 true], none⟩
      [sized 100 false, sized 900 true] rfl rfl).2.1 rfl⟩

/-- C7: in table mode, for a response of `n` records, the table `Run` writes
is the header line followed by exactly `n` rows, and its `i`-th row is the row
of the `i`-th record of the response. -/
theorem Run_table_rows (env : Env) (cmd : listCommand) (args : List String) (c : Controller)
    (records : List UsageRecord) (hd : env.debug = false)
    (hc : env.createController cmd = .ok c) (hq : c.DiskUsage cmd.filter = .ok records) :
    tableOf (Run env cmd args).2 = headerLine :: records.map (tableRow env.fmt) ∧
    (tableOf (Run env cmd args).2).length = records.length + 1 ∧
    ∀ i : Nat, i < records.length →
      (tableOf (Run env cmd args).2)[i + 1]? = records[i]?.map (tableRow env.fmt) := by
  rw [Run_table env cmd args c records hd hc hq]
  refine ⟨rfl, by simp, ?_⟩
  intro i _
  simp

/-- Instance of `Run_table_rows`: the spec's two records, no filter. -/
theorem Run_table_rows_witness :
    tableOf (Run (sampleEnv false [sized 100 false, sized 900 true]) ⟨""⟩ []).2
      = [headerLine, tableRow sampleFmt (sized 100 false), tableRow sampleFmt (sized 900 true)] :=
  (Run_table_rows (sampleEnv false [sized 100 false, sized 900 true]) ⟨""⟩ []
    ⟨fun _ => .ok [sized 100 false, sized 900 true], none⟩
    [sized 100 false, sized 900 true] rfl rfl rfl).1

/-- C8: when the controller's `DiskUsage` query returns an error, `Run` returns
that very error and has written nothing to the output. -/
theorem Run_query_error (env : Env) (cmd : listCommand) (args : List String) (c : Controller)
    (e : GoError) (hc : env.createController cmd = .ok c)
    (hq : c.DiskUsage cmd.filter = .error e) :
    Run env cmd args = (some e, []) := by
  unfold Run
  rw [hc]
  simp only
  rw [hq]

/-- Instance of `Run_query_error`: a controller whose query fails. -/
theorem Run_query_error_witness :
    Run (failingEnv true "rpc error: code = Unavailable") ⟨"id==abc"⟩ []
      = (some "rpc error: code = Unavailable", []) :=
  Run_query_error (failingEnv true "rpc error: code = Unavailable") ⟨"id==abc"⟩ []
    ⟨fun _ => .error "rpc error: code = Unavailable", none⟩ "rpc error: code = Unavailable"
    rfl rfl

/-- C10, as amended: the tab writers `Run` creates, one for the listing and,
with an empty filter, one for the summary, are configured with minimum cell
width 1, tab width 8, padding width 1, the tab character as padding character
and no formatting flags. -/
theorem Run_writers_config (env : Env) (cmd : listCommand) (args : List String)
    (c : Controller) (records : List UsageRecord)
    (hc : env.createController cmd = .ok c) (hq : c.DiskUsage cmd.filter = .ok records) :
    (Run env cmd args).2.map Block.cfg
      = if cmd.filter = "" then [⟨1, 8, 1, '\t', 0⟩, ⟨1, 8, 1, '\t', 0⟩]
        else [⟨1, 8, 1, '\t', 0⟩] := by
  rw [Run_out_of_ok env cmd args c records hc hq, writeSummary_eq]
  cases hdbg : env.debug
  · rw [writeListing_table]
    by_cases hf : cmd.filter = "" <;> simp [hf, NewWriter, runConfig]
  · rw [writeListing_debug]
    by_cases hf : cmd.filter = "" <;> simp [hf, NewWriter, runConfig]

/-- Instance of `Run_writers_config`: no records, no filter, table mode. -/
theorem Run_writers_config_witness :
    (Run (sampleEnv false []) ⟨""⟩ []).2.map Block.cfg
      = [⟨1, 8, 1, '\t', 0⟩, ⟨1, 8, 1, '\t', 0⟩] :=
  Run_writers_config (sampleEnv false []) ⟨""⟩ [] ⟨fun _ => .ok [], none⟩ [] rfl rfl

/-- Counterexample to C10 as stated: with no records and no filter `Run` uses
two writers, and the padding character of both is the tab, not the space. -/
theorem Run_writers_padchar_not_space :
    (Run (sampleEnv false []) ⟨""⟩ []).2.map (fun b => b.cfg.padchar) = ['\t', '\t'] ∧
    ¬ (∀ b ∈ (Run (sampleEnv false []) ⟨""⟩ []).2,
        b.cfg.tabwidth = 8 ∧ b.cfg.padding = 1 ∧ b.cfg.padchar = ' ' ∧ b.cfg.flags = 0) := by
  decide

/-! ## Cells of a table row (C5, C9) -/

/-- C5: in the table `Run` writes, the row of every record of the response has
as first cell the record's ID followed by `*` when `Mutable` is true and the
record's ID alone when `Mutable` is false, and as second cell the negation of
`InUse` (`true` when not in use, `false` when in use). -/
theorem Run_row_id_and_reclaimable (env : Env) (cmd : listCommand) (args : List String)
    (c : Controller) (records : List UsageRecord) (hd : env.debug = false)
    (hc : env.createController cmd = .ok c) (hq : c.DiskUsage cmd.filter = .ok records)
    (i : Nat) (di : UsageRecord) (hi : records[i]? = some di) :
    ∃ c1 c2 rest, (tableOf (Run env cmd args).2)[i + 1]? = some (c1 :: c2 :: rest) ∧
      (di.Mutable = true → c1.text = di.ID ++ "*") ∧
      (di.Mutable = false → c1.text = di.ID) ∧
      c2.text = (if di.InUse then "false" else "true") := by
  rw [Run_table env cmd args c records hd hc hq]
  have hrow : (headerLine :: records.map (tableRow env.fmt))[i + 1]?
      = some (tableRow env.fmt di) := by
    simp [hi]
  refine ⟨⟨71, if di.Mutable then di.ID ++ "*" else di.ID⟩, ⟨11, toString (!di.InUse)⟩,
    [plain (env.fmt.BytesSize di.Size_), plain ""], hrow, ?_, ?_, ?_⟩
  · intro hm
    simp [hm]
  · intro hm
    simp [hm]
  · cases di.InUse <;> rfl

/-- Instance of `Run_row_id_and_reclaimable`: the record `abc123` of the spec
gives the ID cell `abc123*` and the RECLAIMABLE cell `true`. -/
theorem Run_row_id_and_reclaimable_witness :
    ∃ c1 c2 rest, (tableOf (Run (sampleEnv false [abc123]) ⟨""⟩ []).2)[0 + 1]?
        = some (c1 :: c2 :: rest) ∧
      (abc123.Mutable = true → c1.text = "abc123" ++ "*") ∧
      (abc123.Mutable = false → c1.text = "abc123") ∧
      c2.text = (if abc123.InUse then "false" else "true") :=
  Run_row_id_and_reclaimable (sampleEnv false [abc123]) ⟨""⟩ []
    ⟨fun _ => .ok [abc123], none⟩ [abc123] rfl rfl rfl 0 abc123 rfl

/-- C9: in the table `Run` writes, the row of every record has the three cells
ID, RECLAIMABLE and SIZE, rendered to at least 71 and 11 characters for the
first two and holding the size text in the third, and an empty fourth cell
under the header LAST ACCESSED; the row is the same whatever `LastUsedAt` is. -/
theorem Run_row_last_accessed_empty (env : Env) (cmd : listCommand) (args : List String)
    (c : Controller) (records : List UsageRecord) (hd : env.debug = false)
    (hc : env.createController cmd = .ok c) (hq : c.DiskUsage cmd.filter = .ok records)
    (i : Nat) (di : UsageRecord) (hi : records[i]? = some di) :
    (tableOf (Run env cmd args).2)[0]?
      = some [plain "ID", plain "RECLAIMABLE", plain "SIZE", plain "LAST ACCESSED"] ∧
    (∃ c1 c2 c3, (tableOf (Run env cmd args).2)[i + 1]? = some [c1, c2, c3, plain ""] ∧
      71 ≤ c1.render.length ∧ 11 ≤ c2.render.length ∧
      c3.text = env.fmt.BytesSize di.Size_) ∧
    (plain "").render = "" ∧
    (∀ t : Option Time,
      tableRow env.fmt ⟨di.ID, di.Mutable, di.InUse, di.Size_, di.Parent, di.CreatedAt, t,
        di.UsageCount, di.Description⟩ = tableRow env.fmt di) := by
  rw [Run_table env cmd args c records hd hc hq]
  have hrow : (headerLine :: records.map (tableRow env.fmt))[i + 1]?
      = some (tableRow env.fmt di) := by
    simp [hi]
  refine ⟨by simp [headerLine],
    ⟨⟨71, if di.Mutable then di.ID ++ "*" else di.ID⟩, ⟨11, toString (!di.InUse)⟩,
      plain (env.fmt.BytesSize di.Size_), hrow, ?_, ?_, rfl⟩, rfl, fun _ => rfl⟩
  · simp only [Cell.render, String.length_append, String.length_mk, List.length_replicate]
    omega
  · simp only [Cell.render, String.length_append, String.length_mk, List.length_replicate]
    omega

/-- Instance of `Run_row_last_accessed_empty`: a record with a last-use time. -/
theorem Run_row_last_accessed_empty_witness :
    (tableOf (Run (sampleEnv false [abc123Used]) ⟨""⟩ []).2)[0 + 1]?
      = some [⟨71, "abc123*"⟩, ⟨11, "true"⟩, plain (sampleFmt.BytesSize 1048576), plain ""] ∧
    tableRow sampleFmt abc123Used = tableRow sampleFmt abc123 := by
  have h := Run_row_last_accessed_empty (sampleEnv false [abc123Used]) ⟨""⟩ []
    ⟨fun _ => .ok [abc123Used], none⟩ [abc123Used] rfl rfl rfl 0 abc123Used rfl
  refine ⟨?_, ?_⟩
  · obtain ⟨c1, c2, c3, hrow, -, -, -⟩ := h.2.1
    rw [hrow]
    have hrow2 : (tableOf (Run (sampleEnv false [abc123Used]) ⟨""⟩ []).2)[0 + 1]?
        = some (tableRow sampleFmt abc123Used) := rfl
    rw [hrow2] at hrow
    rw [← hrow]
    rfl
  · exact (h.2.2.2 none).symm

/-! ## Lines of a detail block (C6) -/

/-- C6: for every usage record the loop body of `printDebug` appends to the
writer one block of lines whose labels are, in this order, ID, Parent,
Created at, Mutable, Reclaimable, Size, Description, Usage count, Last used,
without Parent exactly when `Parent` is empty, without Description exactly
when `Description` is empty and without Last used exactly when `LastUsedAt` is
nil, followed by one blank line. -/
theorem printDebugRecord_labels (F : Formatters) (tw : Writer) (di : UsageRecord) :
    printDebugRecord F tw di = ⟨tw.cfg, tw.buf ++ detailBlock F di⟩ ∧
    (detailBlock F di).map Line.label
      = (detailLabels.filter (fun l =>
            !(l == "Parent" && di.Parent == "") &&
            !(l == "Description" && di.Description == "") &&
            !(l == "Last used" && di.LastUsedAt.isNone))).map some ++ [none] ∧
    (detailBlock F di).getLast? = some blankLine := by
  refine ⟨printDebugRecord_eq F tw di, ?_, ?_⟩
  · unfold detailBlock printDebugRecord
    have hb : Line.label blankLine = none := rfl
    cases di.LastUsedAt <;> cases hp : (di.Parent == "") <;>
      cases hd : (di.Description == "") <;>
      simp [Fprintf, NewWriter, bne, hp, hd, Line.label_labelled, hb, detailLabels, List.filter]
  · unfold detailBlock printDebugRecord
    cases di.LastUsedAt <;> cases hp : (di.Parent == "") <;>
      cases hd : (di.Description == "") <;>
      simp [Fprintf, NewWriter, bne, hp, hd]

end Img
